import Mathlib

/-!
# Verification of the NEST multimeter model (`src/models/multimeter.cpp`)

A shallow embedding of the multimeter recording device: its configuration
(`Parameters_`), transient buffers/flags (`Buffers_`, `Variables_`), the sample
store (`State_`), the per-slice `update` callback, the reply handler `handle`,
and the export routine `add_data_`.

Conventions of the embedding:
* C++ `double` time values (milliseconds) are modelled as exact rationals `ℚ`;
  the machine epsilon of the tolerance check is an explicit parameter `eps`.
* The kernel `Time` class is not part of the file under scrutiny, so its
  conversions are modelled from the spec: a time is its millisecond value, the
  resolution `r` is the milliseconds of one step, and converting a millisecond
  value to steps rounds to the nearest step.
* C++ exceptions thrown by a mutating member function are modelled by returning
  the error alongside the state as mutated up to the throw point (the C++
  object is mutated in place, so partial updates survive the throw).
* A C `assert` is modelled as a distinct outcome (`assertionFailure`), separate
  from a recoverable typed error: a failing assert aborts the whole process in
  a debug build and performs no check at all with `NDEBUG`.
-/

namespace NestMultimeter

/-- Errors raised synchronously from configuration mutation.  In the C++ all
three are `BadProperty` exceptions; they are distinguished here by which check
raised them, following the spec's taxonomy. -/
inductive SetError where
  | configurationLocked
  | resolutionTooCoarse
  | nonMultipleInterval
deriving DecidableEq, Repr

/-- Modelled from the spec (the `Time` class lives outside the source file):
`Time( Time::ms( v ) ).get_steps()` converts a millisecond value `v` to an
integer step count at resolution `r` ms/step, rounding to the nearest step. -/
def msToSteps (r v : ℚ) : ℤ := ⌊v / r + 1 / 2⌋

/-- Modelled from the spec: `Time::step( n ).get_ms()` is the exact millisecond
value of `n` resolution steps. -/
def stepsToMs (r : ℚ) (n : ℤ) : ℚ := n * r

/-- Embedding of `Multimeter::Buffers_`: `has_targets_` records whether at least one
producer has been connected (set by `send_test_event`); it is the connection
lock of the configuration. -/
structure Buffers_ where
  has_targets_ : Bool
deriving DecidableEq, Repr

/-- Embedding of `Multimeter::Parameters_`: the stored sampling interval (as its
millisecond value, `interval_.get_ms()`) and the ordered record list. -/
structure Parameters_ where
  interval_ : ℚ
  record_from_ : List String
deriving DecidableEq, Repr

/-- The default-constructed `Parameters_`: interval = `Time::ms(1.0)`,
empty record list. -/
def Parameters_.init : Parameters_ := ⟨1, []⟩

/-- Embedding of `Parameters_::get`: exports the interval in ms and the record list,
side-effect free. -/
def Parameters_.get (p : Parameters_) : ℚ × List String :=
  (p.interval_, p.record_from_)

/-- The tail of `Parameters_::set`: wholesale replacement of the record list
when the `record_from` key is present. -/
def setRecordFrom (p : Parameters_) (candRecord : Option (List String)) : Parameters_ :=
  match candRecord with
  | some l => { p with record_from_ := l }
  | none => p

/-- Embedding of `Parameters_::set( d, b )` at resolution `r` with machine epsilon `eps`.
The dictionary is modelled by the two optional candidates (`interval`,
`record_from`).  Returns the error raised (if any) together with the state of
the object after the call — the C++ mutates `this` in place, so `interval_`
keeps the value assigned before a later throw. -/
def Parameters_.set (r eps : ℚ) (p : Parameters_) (b : Buffers_)
    (candInterval : Option ℚ) (candRecord : Option (List String)) :
    Option SetError × Parameters_ :=
  if b.has_targets_ && (candInterval.isSome || candRecord.isSome) then
    (some .configurationLocked, p)
  else
    match candInterval with
    | some v =>
      if v < r then
        (some .resolutionTooCoarse, p)
      else
        let ival := stepsToMs r (msToSteps r v)
        let p1 : Parameters_ := { p with interval_ := ival }
        if 10 * eps < |1 - ival / v| then
          (some .nonMultipleInterval, p1)
        else
          (none, setRecordFrom p1 candRecord)
    | none => (none, setRecordFrom p candRecord)

/-- A sampling request event (`DataLoggingRequest`).  The class definition is
in a header outside the source file; from its two uses in `multimeter.cpp`,
one constructor receives the interval and record list (`send_test_event`,
line 51) and the default constructor receives neither (`update`, line 174). -/
inductive DataLoggingRequest where
  | default_
  | withData (interval : ℚ) (record_from : List String)
deriving DecidableEq, Repr

/-- The request built by `Multimeter::send_test_event` at connection setup:
`DataLoggingRequest e( P_.interval_, P_.record_from_ )`. -/
def send_test_event_request (p : Parameters_) : DataLoggingRequest :=
  .withData p.interval_ p.record_from_

/-- Embedding of `Multimeter::State_`: the append-only store `data_` of snapshots. -/
structure State_ where
  data_ : List (List ℚ)
deriving DecidableEq, Repr

/-- Embedding of `Multimeter::Variables_`: transient per-calibration flags. -/
structure Variables_ where
  new_request_ : Bool
  current_request_data_start_ : ℤ
deriving DecidableEq, Repr

/-- The state of a `Multimeter` instance. -/
structure Multimeter where
  P_ : Parameters_
  S_ : State_
  B_ : Buffers_
  V_ : Variables_
deriving DecidableEq, Repr

/-- Embedding of `Multimeter::update( origin, from, to )`.  `origin_steps` is
`origin.get_steps()`, `from_` the slice-start offset.  Returns the new state
and the list of requests broadcast via `network()->send` (at most one, and a
default-constructed one). -/
def Multimeter.update (m : Multimeter) (origin_steps from_ : ℤ) :
    Multimeter × List DataLoggingRequest :=
  if origin_steps = 0 ∨ from_ ≠ 0 then
    (m, [])
  else
    ({ m with
        V_ := { m.V_ with
                  new_request_ := m.B_.has_targets_ && !m.P_.record_from_.isEmpty } },
     [DataLoggingRequest.default_])

/-- One entry of a `DataLoggingReply` container: a timestamp (`none` models a
non-finite stamp, the batch-termination sentinel; `some s` a finite stamp of
`s` steps) and the sampled value vector. -/
structure ReplyItem where
  timestamp : Option ℤ
  data : List ℚ
deriving DecidableEq, Repr

/-- Embedding of `Multimeter::is_active( T )`: the activation-window predicate over the
recorder-owned bounds, `t_min_ < stamp && stamp <= t_max_`. -/
def is_active (t_min_ t_max_ stamp : ℤ) : Bool :=
  t_min_ < stamp && stamp ≤ t_max_

/-- The loop of `Multimeter::handle`, with the store, the list of
`device_.write` forwards and the `inactive_skipped` counter as accumulators. -/
def handleGo (t_min_ t_max_ : ℤ) :
    List ReplyItem → List (List ℚ) → List (ℤ × List ℚ) → ℕ →
    List (List ℚ) × List (ℤ × List ℚ) × ℕ
  | [], store, written, skipped => (store, written, skipped)
  | item :: rest, store, written, skipped =>
    match item.timestamp with
    | none => (store, written, skipped)
    | some stamp =>
      if is_active t_min_ t_max_ stamp then
        handleGo t_min_ t_max_ rest (store ++ [item.data])
          (written ++ [(stamp, item.data)]) skipped
      else
        handleGo t_min_ t_max_ rest store written (skipped + 1)

/-- Embedding of `Multimeter::handle( reply )`: processes one reply batch against the
activation window, returning the new state, the `(stamp, data)` pairs
forwarded to the recorder via `device_.write`, and the skip counter. -/
def Multimeter.handle (m : Multimeter) (t_min_ t_max_ : ℤ)
    (info : List ReplyItem) : Multimeter × List (ℤ × List ℚ) × ℕ :=
  let res := handleGo t_min_ t_max_ info m.S_.data_ [] 0
  ({ m with S_ := { data_ := res.1 } }, res.2.1, res.2.2)

/-- The items of a batch before the first non-finite timestamp — the part of
the batch that `handle` processes. -/
def finitePrefix (info : List ReplyItem) : List ReplyItem :=
  info.takeWhile (fun it => it.timestamp.isSome)

/-- Window membership of a reply item (false for the non-finite sentinel). -/
def activeItem (t_min_ t_max_ : ℤ) (it : ReplyItem) : Bool :=
  match it.timestamp with
  | some s => is_active t_min_ t_max_ s
  | none => false

/-- The recorder forward produced for an in-window reply item. -/
def writtenOf (it : ReplyItem) : ℤ × List ℚ :=
  (it.timestamp.getD 0, it.data)

/-- Outcome of `Multimeter::add_data_`.  The C++ signals a violated snapshot
length with `assert( v < S_.data_[ t ].size() )`, which aborts the whole
process in a debug build (`assertionFailure`); it never raises a recoverable
typed error (`internalInconsistency` is here only to state what the spec
expects, and is never produced). -/
inductive ExportResult where
  | ok (out : List (String × List ℚ))
  | internalInconsistency
  | assertionFailure
deriving DecidableEq, Repr

/-- The inner loop of `add_data_` for one variable index `v`: the column
`dv[ t ] = S_.data_[ t ][ v ]`, or `none` if some snapshot is too short
(the assert fires). -/
def extractColumn (store : List (List ℚ)) (v : ℕ) : Option (List ℚ) :=
  match store with
  | [] => some []
  | row :: rest =>
    match row[v]?, extractColumn rest v with
    | some x, some xs => some (x :: xs)
    | _, _ => none

/-- The outer loop of `add_data_` over the record list, starting at variable
index `v`. -/
def exportGo (store : List (List ℚ)) (names : List String) (v : ℕ) : ExportResult :=
  match names with
  | [] => .ok []
  | n :: rest =>
    match extractColumn store v with
    | none => .assertionFailure
    | some col =>
      match exportGo store rest (v + 1) with
      | .ok out => .ok ((n, col) :: out)
      | e => e

/-- Embedding of `Multimeter::add_data_( d )`: re-organizes the store into one vector per
recorded variable, keyed by the record-list names, in record-list order. -/
def add_data_ (store : List (List ℚ)) (record_from : List String) : ExportResult :=
  exportGo store record_from 0

/-! ## Theorems -/

/-- C6: when the connection lock (`has_targets_`) is true, every `set` that
presents a candidate interval or a candidate record list fails with
`ConfigurationLockedError`, and `get` is unaffected: it still returns the
prior interval and record list. -/
theorem set_locked_rejects_and_get_unchanged (r eps : ℚ) (p : Parameters_)
    (cI : Option ℚ) (cR : Option (List String))
    (h : cI.isSome ∨ cR.isSome) :
    Parameters_.set r eps p ⟨true⟩ cI cR = (some .configurationLocked, p)
      ∧ Parameters_.get (Parameters_.set r eps p ⟨true⟩ cI cR).2 = Parameters_.get p := by
  have hb : (cI.isSome || cR.isSome) = true := by
    rcases h with h | h <;> simp [h]
  have hs : Parameters_.set r eps p ⟨true⟩ cI cR = (some .configurationLocked, p) := by
    simp [Parameters_.set, hb]
  exact ⟨hs, by rw [hs]⟩

theorem set_locked_rejects_and_get_unchanged_witness :
    ((some (2:ℚ)).isSome ∨ (none : Option (List String)).isSome)
      ∧ (Parameters_.set 1 0 ⟨1, ["a"]⟩ ⟨true⟩ (some 2) none
          = (some .configurationLocked, ⟨1, ["a"]⟩)
        ∧ Parameters_.get (Parameters_.set 1 0 ⟨1, ["a"]⟩ ⟨true⟩ (some 2) none).2
          = Parameters_.get ⟨1, ["a"]⟩) :=
  ⟨Or.inl rfl,
   set_locked_rejects_and_get_unchanged 1 0 ⟨1, ["a"]⟩ (some 2) none (Or.inl rfl)⟩

/-- C7: for a candidate interval `v` at least the resolution `r` and an exact
multiple of `r` within the `10 * eps` tolerance, `set` succeeds, stores the
interval rounded to the nearest integer multiple of the resolution, and a
subsequent `get` returns that rounded value. -/
theorem set_accepts_multiple_interval (r eps v : ℚ) (p : Parameters_)
    (h1 : ¬ v < r)
    (h2 : ¬ 10 * eps < |1 - stepsToMs r (msToSteps r v) / v|) :
    Parameters_.set r eps p ⟨false⟩ (some v) none
      = (none, { p with interval_ := stepsToMs r (msToSteps r v) })
      ∧ Parameters_.get (Parameters_.set r eps p ⟨false⟩ (some v) none).2
        = (stepsToMs r (msToSteps r v), p.record_from_) := by
  have hs : Parameters_.set r eps p ⟨false⟩ (some v) none
      = (none, { p with interval_ := stepsToMs r (msToSteps r v) }) := by
    simp [Parameters_.set, h1, h2, setRecordFrom]
  exact ⟨hs, by rw [hs]; rfl⟩

theorem set_accepts_multiple_interval_witness :
    (¬ (5:ℚ) < 1)
      ∧ (¬ 10 * (0:ℚ) < |1 - stepsToMs 1 (msToSteps 1 5) / 5|)
      ∧ (Parameters_.set 1 0 Parameters_.init ⟨false⟩ (some 5) none
          = (none, { Parameters_.init with interval_ := stepsToMs 1 (msToSteps 1 5) })
        ∧ Parameters_.get (Parameters_.set 1 0 Parameters_.init ⟨false⟩ (some 5) none).2
          = (stepsToMs 1 (msToSteps 1 5), Parameters_.init.record_from_)) := by
  have h1 : ¬ (5:ℚ) < 1 := by norm_num
  have hsteps : msToSteps 1 5 = 5 := by unfold msToSteps; norm_num
  have h2 : ¬ 10 * (0:ℚ) < |1 - stepsToMs 1 (msToSteps 1 5) / 5| := by
    rw [hsteps]; unfold stepsToMs; norm_num
  exact ⟨h1, h2, set_accepts_multiple_interval 1 0 5 Parameters_.init h1 h2⟩

/-- C8: for a candidate interval `v` strictly smaller than the current
simulation resolution `r`, an unlocked `set` fails with
`ResolutionTooCoarseError` and changes nothing. -/
theorem set_below_resolution_rejected (r eps v : ℚ) (p : Parameters_)
    (cR : Option (List String)) (h : v < r) :
    Parameters_.set r eps p ⟨false⟩ (some v) cR
      = (some .resolutionTooCoarse, p) := by
  simp [Parameters_.set, h]

theorem set_below_resolution_rejected_witness :
    ((1:ℚ) / 2 < 1)
      ∧ Parameters_.set 1 0 Parameters_.init ⟨false⟩ (some (1 / 2)) none
        = (some .resolutionTooCoarse, Parameters_.init) :=
  ⟨by norm_num,
   set_below_resolution_rejected 1 0 (1 / 2) Parameters_.init none (by norm_num)⟩

/-- C9: `update` on the first simulation slice (`origin.get_steps() = 0`) or
mid-slice (`from ≠ 0`) issues no request and changes no component state. -/
theorem update_first_slice_or_midslice_noop (m : Multimeter)
    (origin_steps from_ : ℤ) (h : origin_steps = 0 ∨ from_ ≠ 0) :
    m.update origin_steps from_ = (m, []) := by
  unfold Multimeter.update
  rw [if_pos h]

theorem update_first_slice_or_midslice_noop_witness :
    ((0:ℤ) = 0 ∨ (0:ℤ) ≠ 0)
      ∧ Multimeter.update ⟨⟨5, ["a"]⟩, ⟨[[1]]⟩, ⟨true⟩, ⟨true, 0⟩⟩ 0 0
        = (⟨⟨5, ["a"]⟩, ⟨[[1]]⟩, ⟨true⟩, ⟨true, 0⟩⟩, []) :=
  ⟨Or.inl rfl,
   update_first_slice_or_midslice_noop ⟨⟨5, ["a"]⟩, ⟨[[1]]⟩, ⟨true⟩, ⟨true, 0⟩⟩ 0 0
     (Or.inl rfl)⟩

/-- C1 (counterexample): at resolution 1 with machine epsilon `1 / 2 ^ 60`,
setting the interval candidate `13 / 10` on an unlocked configuration whose
stored interval is `2` raises `NonMultipleIntervalError` — but the state after
the call is not the state before the call: `interval_` has been overwritten
with the rounded value `1`. -/
theorem set_nonmultiple_partial_apply_cex :
    (Parameters_.set 1 (1 / 2 ^ 60) ⟨2, []⟩ ⟨false⟩ (some (13 / 10)) none).1
        = some SetError.nonMultipleInterval
      ∧ (Parameters_.set 1 (1 / 2 ^ 60) ⟨2, []⟩ ⟨false⟩ (some (13 / 10)) none).2
        ≠ (⟨2, []⟩ : Parameters_) := by
  have hs : Parameters_.set 1 (1 / 2 ^ 60) ⟨2, []⟩ ⟨false⟩ (some (13 / 10)) none
      = (some SetError.nonMultipleInterval, ⟨1, []⟩) := by
    unfold Parameters_.set
    norm_num [msToSteps, stepsToMs]
    intro h
    rw [abs_of_nonneg (by norm_num : (0:ℚ) ≤ 3 / 13)] at h
    norm_num at h
  rw [hs]
  refine ⟨rfl, fun hne => ?_⟩
  have : (1:ℚ) = 2 := congrArg Parameters_.interval_ hne
  norm_num at this

/-- C1 (amended): with the lock not taken, a candidate interval `v` at least
the resolution whose rounded value deviates from the request by more than
`10 * eps` relative error makes `set` fail with `NonMultipleIntervalError`;
the record list is untouched, but the stored interval has already been
overwritten with the rounded candidate — the `interval_` assignment precedes
the multiple-of-resolution validation. -/
theorem set_nonmultiple_overwrites_interval (r eps v : ℚ) (p : Parameters_)
    (cR : Option (List String))
    (h1 : ¬ v < r)
    (h2 : 10 * eps < |1 - stepsToMs r (msToSteps r v) / v|) :
    Parameters_.set r eps p ⟨false⟩ (some v) cR
      = (some .nonMultipleInterval,
         { p with interval_ := stepsToMs r (msToSteps r v) }) := by
  simp [Parameters_.set, h1, h2]

theorem set_nonmultiple_overwrites_interval_witness :
    (¬ (13:ℚ) / 10 < 1)
      ∧ (10 * ((1:ℚ) / 2 ^ 60) < |1 - stepsToMs 1 (msToSteps 1 (13 / 10)) / (13 / 10)|)
      ∧ Parameters_.set 1 (1 / 2 ^ 60) ⟨2, []⟩ ⟨false⟩ (some (13 / 10)) none
        = (some .nonMultipleInterval,
           { (⟨2, []⟩ : Parameters_) with interval_ := stepsToMs 1 (msToSteps 1 (13 / 10)) }) := by
  have h1 : ¬ (13:ℚ) / 10 < 1 := by norm_num
  have hsteps : msToSteps 1 (13 / 10) = 1 := by unfold msToSteps; norm_num
  have h2 : 10 * ((1:ℚ) / 2 ^ 60)
      < |1 - stepsToMs 1 (msToSteps 1 (13 / 10)) / (13 / 10)| := by
    rw [hsteps]
    unfold stepsToMs
    rw [show |1 - (1:ℤ) * (1:ℚ) / (13 / 10)| = 3 / 13 by norm_num]
    norm_num
  exact ⟨h1, h2, set_nonmultiple_overwrites_interval 1 (1 / 2 ^ 60) (13 / 10) ⟨2, []⟩ none h1 h2⟩

/-- C3 (counterexample): at a later slice's start, `update` emits exactly one
request, but it is the default-constructed `DataLoggingRequest req;` of line
174 — not a request carrying the sampling interval and record list, which is
what `send_test_event` builds at connection setup (line 51). -/
theorem update_request_without_payload_cex :
    (Multimeter.update ⟨⟨5, ["a"]⟩, ⟨[]⟩, ⟨true⟩, ⟨false, 0⟩⟩ 3 0).2
        = [DataLoggingRequest.default_]
      ∧ DataLoggingRequest.default_ ≠ send_test_event_request ⟨5, ["a"]⟩ := by
  constructor
  · rfl
  · intro h
    simp [send_test_event_request] at h

/-- C3 (amended): on every slice-start invocation of `update` that is not the
first slice and not mid-slice, the scheduler sets `new_request_` to
`has_targets_ AND record list nonempty` and then unconditionally emits exactly
one default-constructed request — regardless of the flag's value, and without
attaching the interval or record list to it (those travel at connection setup
via `send_test_event`). -/
theorem update_slice_start_emits_one_default_request (m : Multimeter)
    (origin_steps from_ : ℤ) (h1 : origin_steps ≠ 0) (h2 : from_ = 0) :
    m.update origin_steps from_
      = ({ m with
            V_ := { m.V_ with
                      new_request_ := m.B_.has_targets_ && !m.P_.record_from_.isEmpty } },
         [DataLoggingRequest.default_]) := by
  subst h2
  have hcond : ¬ (origin_steps = 0 ∨ (0:ℤ) ≠ 0) := by simp [h1]
  unfold Multimeter.update
  rw [if_neg hcond]

theorem update_slice_start_emits_one_default_request_witness :
    ((3:ℤ) ≠ 0)
      ∧ ((0:ℤ) = 0)
      ∧ Multimeter.update ⟨⟨5, ["a"]⟩, ⟨[]⟩, ⟨false⟩, ⟨true, 0⟩⟩ 3 0
        = (⟨⟨5, ["a"]⟩, ⟨[]⟩, ⟨false⟩, ⟨false, 0⟩⟩, [DataLoggingRequest.default_]) := by
  refine ⟨by norm_num, rfl, ?_⟩
  have h := update_slice_start_emits_one_default_request
    ⟨⟨5, ["a"]⟩, ⟨[]⟩, ⟨false⟩, ⟨true, 0⟩⟩ 3 0 (by norm_num) rfl
  exact h

/-- The loop of `handle`, characterized: it walks the batch up to the first
non-finite timestamp, appends the in-window value vectors to the store in
order, forwards them to the recorder, and counts the out-of-window points. -/
theorem handleGo_spec (t_min_ t_max_ : ℤ) (info : List ReplyItem) :
    ∀ (store : List (List ℚ)) (written : List (ℤ × List ℚ)) (skipped : ℕ),
    handleGo t_min_ t_max_ info store written skipped
      = (store ++ ((finitePrefix info).filter (activeItem t_min_ t_max_)).map ReplyItem.data,
         written ++ ((finitePrefix info).filter (activeItem t_min_ t_max_)).map writtenOf,
         skipped
           + ((finitePrefix info).filter (fun it => !activeItem t_min_ t_max_ it)).length) := by
  induction info with
  | nil =>
    intro store written skipped
    simp [handleGo, finitePrefix]
  | cons item rest ih =>
    intro store written skipped
    cases hts : item.timestamp with
    | none =>
      have hfp : finitePrefix (item :: rest) = [] := by
        simp [finitePrefix, hts]
      simp [handleGo, hts, hfp]
    | some stamp =>
      have hfp : finitePrefix (item :: rest) = item :: finitePrefix rest := by
        simp [finitePrefix, hts]
      have hact : activeItem t_min_ t_max_ item = is_active t_min_ t_max_ stamp := by
        simp [activeItem, hts]
      cases hia : is_active t_min_ t_max_ stamp with
      | true =>
        have hw : writtenOf item = (stamp, item.data) := by simp [writtenOf, hts]
        simp [handleGo, hts, hia, hfp, List.filter_cons, hact, ih, hw]
      | false =>
        simp [handleGo, hts, hia, hfp, List.filter_cons, hact, ih]
        omega

/-- C4: `handle` processes a reply batch strictly in order, stops entirely at
the first non-finite timestamp, drops every point outside the window
`t_min < t ≤ t_max` (counting it, storing and forwarding nothing), and for
every in-window point forwards `(stamp, data)` to the recorder and appends the
value vector as a new snapshot; in particular, with window `(0, 40]` and batch
`[(10, [1, 2]), (50, [3, 4]), (sentinel, _), (20, [7, 8])]`, exactly one
snapshot `[1, 2]` is appended, one point is counted as skipped, and nothing
past the sentinel is touched. -/
theorem handle_stops_at_sentinel_and_filters_window (t_min_ t_max_ : ℤ)
    (m : Multimeter) (info : List ReplyItem) :
    ((m.handle t_min_ t_max_ info).1.S_.data_
        = m.S_.data_
          ++ ((finitePrefix info).filter (activeItem t_min_ t_max_)).map ReplyItem.data)
      ∧ ((m.handle t_min_ t_max_ info).1.P_ = m.P_
          ∧ (m.handle t_min_ t_max_ info).1.B_ = m.B_
          ∧ (m.handle t_min_ t_max_ info).1.V_ = m.V_)
      ∧ (m.handle t_min_ t_max_ info).2.1
        = ((finitePrefix info).filter (activeItem t_min_ t_max_)).map writtenOf
      ∧ (m.handle t_min_ t_max_ info).2.2
        = ((finitePrefix info).filter (fun it => !activeItem t_min_ t_max_ it)).length
      ∧ (Multimeter.handle ⟨⟨1, ["V_m", "g_e"]⟩, ⟨[]⟩, ⟨true⟩, ⟨true, 0⟩⟩ 0 40
            [⟨some 10, [1, 2]⟩, ⟨some 50, [3, 4]⟩, ⟨none, [9, 9]⟩, ⟨some 20, [7, 8]⟩]).1.S_.data_
          = [[1, 2]]
      ∧ (Multimeter.handle ⟨⟨1, ["V_m", "g_e"]⟩, ⟨[]⟩, ⟨true⟩, ⟨true, 0⟩⟩ 0 40
            [⟨some 10, [1, 2]⟩, ⟨some 50, [3, 4]⟩, ⟨none, [9, 9]⟩, ⟨some 20, [7, 8]⟩]).2
          = ([(10, [1, 2])], 1) := by
  refine ⟨?_, ⟨rfl, rfl, rfl⟩, ?_, ?_, ?_, ?_⟩
  · simp [Multimeter.handle, handleGo_spec]
  · simp [Multimeter.handle, handleGo_spec]
  · simp [Multimeter.handle, handleGo_spec]
  · rfl
  · rfl

/-- C10: `handle` appends each in-window value vector to the store verbatim,
with no check of its length against the record list: for any value vector
`d`, the single in-window point `(10, d)` stores exactly `d`; in particular a
vector of length 3 is stored as a snapshot although the record list has
length 2, so the every-snapshot-matches-the-record-list invariant is not
enforced by `handle`. -/
theorem handle_appends_verbatim_without_length_check :
    (∀ d : List ℚ,
        (Multimeter.handle ⟨⟨5, ["a", "b"]⟩, ⟨[]⟩, ⟨true⟩, ⟨false, 0⟩⟩ 0 40
            [⟨some 10, d⟩]).1.S_.data_ = [d])
      ∧ (Multimeter.handle ⟨⟨5, ["a", "b"]⟩, ⟨[]⟩, ⟨true⟩, ⟨false, 0⟩⟩ 0 40
            [⟨some 10, [1, 2, 3]⟩]).1.S_.data_ = [[1, 2, 3]]
      ∧ [(1:ℚ), 2, 3].length
          ≠ (Multimeter.mk ⟨5, ["a", "b"]⟩ ⟨[]⟩ ⟨true⟩ ⟨false, 0⟩).P_.record_from_.length := by
  refine ⟨fun d => rfl, rfl, ?_⟩
  intro h
  simp only [List.length_cons, List.length_nil] at h
  omega

/-- The inner export loop succeeds on a store whose rows all have more than
`v` entries, and produces exactly the `v`-th column of the store. -/
theorem extractColumn_eq_map (store : List (List ℚ)) (v : ℕ)
    (h : ∀ row ∈ store, v < row.length) :
    extractColumn store v = some (store.map (fun row => row.getD v 0)) := by
  induction store with
  | nil => simp [extractColumn]
  | cons row rest ih =>
    have hv : v < row.length := h row (List.mem_cons_self row rest)
    have hget : row[v]? = some (row.getD v 0) := by
      rw [List.getElem?_eq_getElem hv, List.getD_eq_getElem row 0 hv]
    have hrest := ih (fun r hr => h r (List.mem_cons_of_mem row hr))
    simp only [extractColumn, hget, hrest, List.map_cons]

/-- The inner export loop hits the assert as soon as some row has at most `v`
entries. -/
theorem extractColumn_eq_none (store : List (List ℚ)) (v : ℕ)
    (h : ∃ row ∈ store, row.length ≤ v) :
    extractColumn store v = none := by
  induction store with
  | nil => simp at h
  | cons row rest ih =>
    rcases h with ⟨r, hr, hlen⟩
    rcases List.mem_cons.1 hr with rfl | hr
    · have hget : r[v]? = none := List.getElem?_eq_none hlen
      cases hrest : extractColumn rest v <;> simp [extractColumn, hget, hrest]
    · have hrest := ih ⟨r, hr, hlen⟩
      cases hget : row[v]? <;> simp [extractColumn, hget, hrest]

/-- A successful column extraction certifies that every row is longer than
`v`. -/
theorem extractColumn_some_length (store : List (List ℚ)) (v : ℕ)
    (col : List ℚ) (h : extractColumn store v = some col) :
    ∀ row ∈ store, v < row.length := by
  intro row hrow
  by_contra hnot
  rw [extractColumn_eq_none store v ⟨row, hrow, Nat.le_of_not_lt hnot⟩] at h
  exact Option.noConfusion h

/-- The outer export loop, on a store whose rows can serve all the remaining
columns, returns one named column per remaining record-list entry. -/
theorem exportGo_ok (names : List String) :
    ∀ (v : ℕ) (store : List (List ℚ)),
    (∀ row ∈ store, v + names.length ≤ row.length) →
    ∃ out, exportGo store names v = .ok out
      ∧ out.length = names.length
      ∧ ∀ i < names.length,
          out.getD i ("", [])
            = (names.getD i "", store.map (fun row => row.getD (v + i) 0)) := by
  induction names with
  | nil =>
    intro v store _
    exact ⟨[], rfl, rfl, fun i hi => absurd hi (Nat.not_lt_zero i)⟩
  | cons n rest ih =>
    intro v store h
    have hcol : extractColumn store v = some (store.map (fun row => row.getD v 0)) := by
      refine extractColumn_eq_map store v (fun row hrow => ?_)
      have := h row hrow
      simp only [List.length_cons] at this
      omega
    obtain ⟨out, hgo, hlen, hidx⟩ := ih (v + 1) store (fun row hrow => by
      have := h row hrow
      simp only [List.length_cons] at this ⊢
      omega)
    refine ⟨(n, store.map (fun row => row.getD v 0)) :: out, ?_, by simp [hlen], ?_⟩
    · simp [exportGo, hcol, hgo]
    · intro i hi
      cases i with
      | zero => simp
      | succ j =>
        have hj : j < rest.length := by
          simp only [List.length_cons] at hi
          omega
        have := hidx j hj
        simp only [List.getD_cons_succ]
        rw [this]
        have : v + (j + 1) = v + 1 + j := by omega
        rw [this]

/-- The outer export loop aborts on the assert as soon as some row is too
short for the remaining columns (given that the already-extracted columns
fit, which holds at every reachable call). -/
theorem exportGo_assertion (names : List String) :
    ∀ (v : ℕ) (store : List (List ℚ)),
    (∃ row ∈ store, row.length < v + names.length) →
    (∀ row ∈ store, v ≤ row.length) →
    exportGo store names v = .assertionFailure := by
  induction names with
  | nil =>
    intro v store hshort hprev
    rcases hshort with ⟨row, hrow, hlen⟩
    have := hprev row hrow
    simp only [List.length_nil, Nat.add_zero] at hlen
    omega
  | cons n rest ih =>
    intro v store hshort hprev
    by_cases hnone : ∃ row ∈ store, row.length ≤ v
    · simp [exportGo, extractColumn_eq_none store v hnone]
    · push_neg at hnone
      have hcol : extractColumn store v = some (store.map (fun row => row.getD v 0)) :=
        extractColumn_eq_map store v hnone
      have hrec : exportGo store rest (v + 1) = .assertionFailure := by
        refine ih (v + 1) store ?_ (fun row hrow => hnone row hrow)
        rcases hshort with ⟨row, hrow, hlen⟩
        refine ⟨row, hrow, ?_⟩
        simp only [List.length_cons] at hlen
        omega
      simp [exportGo, hcol, hrec]

/-- C2 (counterexample): on the store `[[5]]` (one snapshot of length 1) with
record list `["a", "b"]`, `add_data_` hits `assert( v < S_.data_[ t ].size() )`
— in the model, the outcome is the process-aborting `assertionFailure`, not a
recoverable typed `InternalInconsistency` failure confined to the export
operation. -/
theorem add_data_assert_not_typed_cex :
    add_data_ [[(5:ℚ)]] ["a", "b"] = ExportResult.assertionFailure
      ∧ add_data_ [[(5:ℚ)]] ["a", "b"] ≠ ExportResult.internalInconsistency := by
  refine ⟨rfl, ?_⟩
  intro h
  simp [add_data_, exportGo, extractColumn] at h

/-- C2 (amended): whenever some snapshot of the store is shorter than the
record list (i.e. shorter than `v + 1` for some record-list index `v`),
`add_data_` fails on the C `assert` — which in a debug build terminates the
whole process rather than surfacing a typed `InternalInconsistency` failure
that aborts only the export. -/
theorem add_data_asserts_on_short_snapshot (store : List (List ℚ))
    (record : List String)
    (h : ∃ row ∈ store, row.length < record.length) :
    add_data_ store record = .assertionFailure := by
  unfold add_data_
  refine exportGo_assertion record 0 store ?_ (fun row _ => Nat.zero_le _)
  rcases h with ⟨row, hrow, hlen⟩
  exact ⟨row, hrow, by omega⟩

theorem add_data_asserts_on_short_snapshot_witness :
    (∃ row ∈ [[(5:ℚ)]], row.length < (["a", "b"] : List String).length)
      ∧ add_data_ [[(5:ℚ)]] ["a", "b"] = .assertionFailure := by
  have h : ∃ row ∈ [[(5:ℚ)]], row.length < (["a", "b"] : List String).length :=
    ⟨[5], List.mem_singleton_self [5], by simp⟩
  exact ⟨h, add_data_asserts_on_short_snapshot [[(5:ℚ)]] ["a", "b"] h⟩

/-- C5: for every store whose snapshots can all serve the record list and
every record list, `add_data_` produces, for each record-list index `v`, the
name paired with an ordered sequence of length `|store|` whose entry `t` is
`store[ t ][ v ]`. -/
theorem add_data_roundtrip (store : List (List ℚ)) (record : List String)
    (h : ∀ row ∈ store, record.length ≤ row.length) :
    ∃ out, add_data_ store record = .ok out
      ∧ out.length = record.length
      ∧ ∀ v < record.length,
          (out.getD v ("", [])).1 = record.getD v ""
          ∧ (out.getD v ("", [])).2.length = store.length
          ∧ ∀ t < store.length,
              (out.getD v ("", [])).2.getD t 0 = (store.getD t []).getD v 0 := by
  obtain ⟨out, hgo, hlen, hidx⟩ :=
    exportGo_ok record 0 store (fun row hrow => by simpa using h row hrow)
  refine ⟨out, hgo, hlen, fun v hv => ?_⟩
  have hout := hidx v hv
  rw [show (0:ℕ) + v = v by omega] at hout
  rw [hout]
  refine ⟨rfl, by simp, fun t _ => ?_⟩
  simpa using List.getD_map store [] (fun row => row.getD v 0) (n := t)

theorem add_data_roundtrip_witness :
    (∀ row ∈ [[(1:ℚ), 2], [3, 4], [5, 6]],
        (["a", "b"] : List String).length ≤ row.length)
      ∧ ∃ out, add_data_ [[(1:ℚ), 2], [3, 4], [5, 6]] ["a", "b"] = .ok out
          ∧ out.length = (["a", "b"] : List String).length
          ∧ ∀ v < (["a", "b"] : List String).length,
              (out.getD v ("", [])).1 = (["a", "b"] : List String).getD v ""
              ∧ (out.getD v ("", [])).2.length
                  = ([[(1:ℚ), 2], [3, 4], [5, 6]] : List (List ℚ)).length
              ∧ ∀ t < ([[(1:ℚ), 2], [3, 4], [5, 6]] : List (List ℚ)).length,
                  (out.getD v ("", [])).2.getD t 0
                    = (([[(1:ℚ), 2], [3, 4], [5, 6]] : List (List ℚ)).getD t []).getD v 0 := by
  have h : ∀ row ∈ [[(1:ℚ), 2], [3, 4], [5, 6]],
      (["a", "b"] : List String).length ≤ row.length := by
    intro row hrow
    fin_cases hrow <;> simp
  exact ⟨h, add_data_roundtrip [[(1:ℚ), 2], [3, 4], [5, 6]] ["a", "b"] h⟩

end NestMultimeter
